import Mathlib

/-!
Verification of the raw-image decoding pipeline (demosaic, white balance,
gamma correction) from src/decode.py.

Embedding choices:
* A sensor array is a list of rows of rationals (`Grid`); a color image is a
  list of rows of 3-channel pixels (`ColorImage`).  Floating-point arithmetic
  of the source is modelled exactly over `ℚ` for the demosaic and
  white-balance stages; the gamma stage uses `np.power` with an arbitrary
  real exponent and is modelled over `ℝ` with `Real.rpow`.
* `scipy.ndimage.convolve` is called with its defaults, so the border mode is
  "reflect" (pad pattern d c b a | a b c d | d c b a); `reflectIdx` implements
  that extension for the index range `-n ≤ i < 2*n`, which covers every index
  a 3x3 kernel can probe.  `scipy.ndimage.convolve` flips the kernel relative
  to correlation; both interpolation kernels used by the source are centrally
  symmetric, so correlation and convolution coincide and `conv3At` computes
  the correlation sum.
* `numpy.matlib.repmat(a, m, n)` tiles `a` m times vertically and n times
  horizontally; entry (i, j) of the result is entry (i mod p, j mod q) of `a`.
* the source accepts the white reference as a Python list (gains used directly)
  or tuple (pixel coordinate); numpy broadcasting of `image * reference` over a
  3-channel image requires exactly three gains, so the list variant is embedded
  as a gain triple.
* numpy basic indexing `image[r, c, i]` accepts negative indices down to `-n`
  (Python wrap-around) and raises IndexError otherwise; `npIndex` implements
  exactly that.  The source has no other error handling: `white_balance`
  computes `1./image[r, c, i]` unguarded (numpy emits inf/NaN on a zero
  denominator instead of raising; over `ℚ` the division is total with junk
  value 0 — either way the stage returns normally) and `gamma_correction`
  applies `np.power` without validating gamma.
-/

abbrev Grid := List (List ℚ)

abbrev ColorImage := List (List (List ℚ))

abbrev RealImage := List (List (List ℝ))

def getElem2 (g : Grid) (i j : ℕ) : ℚ := (g.getD i []).getD j 0

def getElem3 (img : ColorImage) (i j k : ℕ) : ℚ := ((img.getD i []).getD j []).getD k 0

def getElem3R (img : RealImage) (i j k : ℕ) : ℝ := ((img.getD i []).getD j []).getD k 0

def red_filter : Grid := [[1, 0], [0, 0]]

def green_filter : Grid := [[0, 1], [1, 0]]

def blue_filter : Grid := [[0, 0], [0, 1]]

def repmat (a : Grid) (m n : ℕ) : Grid :=
  (List.range (m * a.length)).map fun i =>
    (List.range (n * (a.headD []).length)).map fun j =>
      getElem2 a (i % a.length) (j % (a.headD []).length)

def red_mask (height width : ℕ) : Grid := repmat red_filter (height / 2) (width / 2)

def geen_mask (height width : ℕ) : Grid := repmat green_filter (height / 2) (width / 2)

def blue_mask (height width : ℕ) : Grid := repmat blue_filter (height / 2) (width / 2)

def red_blue_interpolation : Grid := [[1/4, 2/4, 1/4], [2/4, 4/4, 2/4], [1/4, 2/4, 1/4]]

def green_interpolation : Grid := [[0/4, 1/4, 0/4], [1/4, 4/4, 1/4], [0/4, 1/4, 0/4]]

def reflectIdx (n : ℕ) (i : ℤ) : ℕ :=
  if i < 0 then (-i - 1).toNat
  else if (n : ℤ) ≤ i then (2 * (n : ℤ) - 1 - i).toNat
  else i.toNat

def sample (g : Grid) (i j : ℤ) : ℚ :=
  getElem2 g (reflectIdx g.length i) (reflectIdx (g.headD []).length j)

def offsets : List ℤ := [-1, 0, 1]

def conv3At (k : Grid) (g : Grid) (i j : ℕ) : ℚ :=
  (offsets.map fun di =>
    (offsets.map fun dj =>
      getElem2 k (di + 1).toNat (dj + 1).toNat * sample g ((i : ℤ) + di) ((j : ℤ) + dj)).sum).sum

def conv3 (k : Grid) (g : Grid) : Grid :=
  (List.range g.length).map fun i =>
    (List.range (g.headD []).length).map fun j => conv3At k g i j

def gridMul (a b : Grid) : Grid := List.zipWith (List.zipWith (· * ·)) a b

def demosaic (image : Grid) : ColorImage :=
  let height := image.length
  let width := (image.headD []).length
  let r := conv3 red_blue_interpolation (gridMul image (red_mask height width))
  let g := conv3 green_interpolation (gridMul image (geen_mask height width))
  let b := conv3 red_blue_interpolation (gridMul image (blue_mask height width))
  (List.range height).map fun i =>
    (List.range width).map fun j =>
      [getElem2 r i j, getElem2 g i j, getElem2 b i j]

def clip (x lo hi : ℚ) : ℚ := min (max x lo) hi

inductive WhiteReference where
  | gains (g0 g1 g2 : ℚ)
  | pixel (r c : ℤ)

inductive WBError where
  | indexError

def npIndex (n : ℕ) (i : ℤ) : Option ℕ :=
  if 0 ≤ i ∧ i < (n : ℤ) then some i.toNat
  else if -(n : ℤ) ≤ i ∧ i < 0 then some (i + (n : ℤ)).toNat
  else none

def pixelAt (img : ColorImage) (r c : ℕ) : List ℚ := (img.getD r []).getD c []

def applyGains (image : ColorImage) (g0 g1 g2 : ℚ) : ColorImage :=
  image.map fun row => row.map fun p =>
    [clip (p.getD 0 0 * g0) 0 1, clip (p.getD 1 0 * g1) 0 1, clip (p.getD 2 0 * g2) 0 1]

def white_balance (image : ColorImage) (white_reference : WhiteReference) :
    Except WBError ColorImage :=
  match white_reference with
  | .gains g0 g1 g2 => .ok (applyGains image g0 g1 g2)
  | .pixel r c =>
    match npIndex image.length r with
    | none => .error .indexError
    | some ri =>
      match npIndex ((image.headD []).length) c with
      | none => .error .indexError
      | some ci =>
        let p := pixelAt image ri ci
        .ok (applyGains image (1 / p.getD 0 0) (1 / p.getD 1 0) (1 / p.getD 2 0))

noncomputable def gamma_correction (image : RealImage) (gamma : ℝ) : RealImage :=
  image.map fun row => row.map fun p => p.map fun x => x ^ gamma

def toRealImage (img : ColorImage) : RealImage :=
  img.map fun row => row.map fun p => p.map fun x => ((Rat.cast x : ℝ))

def isImage (img : ColorImage) (h w : ℕ) : Prop :=
  img.length = h ∧ ∀ row ∈ img, row.length = w ∧ ∀ p ∈ row, p.length = 3

def imageAllQ (P : ℚ → Prop) (img : ColorImage) : Prop :=
  ∀ row ∈ img, ∀ p ∈ row, ∀ x ∈ p, P x

def imageAllR (P : ℝ → Prop) (img : RealImage) : Prop :=
  ∀ row ∈ img, ∀ p ∈ row, ∀ x ∈ p, P x

def half4 : Grid := List.replicate 4 (List.replicate 4 (1/2))

def dims (img : RealImage) : List (List ℕ) := img.map fun row => row.map List.length

theorem getD_range_map {α : Type} (N : ℕ) (f : ℕ → α) (i : ℕ) (d : α) (h : i < N) :
    ((List.range N).map f).getD i d = f i := by
  rw [List.getD_eq_getElem?_getD, List.getElem?_map, List.getElem?_range h]
  rfl

theorem getD_replicate {α : Type} (n : ℕ) (a : α) (i : ℕ) (h : i < n) (d : α) :
    (List.replicate n a).getD i d = a := by
  rw [List.getD_eq_getElem?_getD, List.getElem?_replicate_of_lt h]
  rfl

theorem getD_map_lt {α β : Type} (f : α → β) (l : List α) (i : ℕ) (h : i < l.length)
    (d : β) (d0 : α) : (l.map f).getD i d = f (l.getD i d0) := by
  rw [List.getD_eq_getElem?_getD, List.getElem?_map, List.getElem?_eq_getElem h]
  rw [List.getD_eq_getElem?_getD, List.getElem?_eq_getElem h]
  rfl

theorem getElem2_conv3 (k g : Grid) (i j : ℕ) (hi : i < g.length)
    (hj : j < (g.headD []).length) :
    getElem2 (conv3 k g) i j = conv3At k g i j := by
  unfold getElem2 conv3
  rw [getD_range_map _ _ _ _ hi, getD_range_map _ _ _ _ hj]

theorem getD_zipWith_mul (xs ys : List ℚ) (j : ℕ) :
    (List.zipWith (fun x y => x * y) xs ys).getD j 0 = xs.getD j 0 * ys.getD j 0 := by
  induction xs generalizing ys j with
  | nil => simp
  | cons x xs ih =>
    cases ys with
    | nil => simp
    | cons y ys =>
      cases j with
      | zero => simp
      | succ j' => simpa using ih ys j'

theorem getElem2_gridMul (a b : Grid) (i j : ℕ) :
    getElem2 (gridMul a b) i j = getElem2 a i j * getElem2 b i j := by
  unfold getElem2 gridMul
  induction a generalizing b i with
  | nil => simp
  | cons r as ih =>
    cases b with
    | nil => simp
    | cons s bs =>
      cases i with
      | zero => simpa using getD_zipWith_mul r s j
      | succ i' => simpa using ih bs i'

theorem getElem2_half4 (i j : ℕ) (hi : i < 4) (hj : j < 4) : getElem2 half4 i j = 1/2 := by
  unfold getElem2 half4
  rw [getD_replicate _ _ _ hi, getD_replicate _ _ _ hj]

theorem getElem2_repmat (a : Grid) (m n i j : ℕ) (hi : i < m * a.length)
    (hj : j < n * (a.headD []).length) :
    getElem2 (repmat a m n) i j = getElem2 a (i % a.length) (j % (a.headD []).length) := by
  unfold repmat getElem2
  rw [getD_range_map _ _ _ _ hi, getD_range_map _ _ _ _ hj]

theorem red_mask_entry (H W i j : ℕ) (hH : H % 2 = 0) (hW : W % 2 = 0) (hi : i < H)
    (hj : j < W) : getElem2 (red_mask H W) i j = getElem2 red_filter (i % 2) (j % 2) := by
  have h := getElem2_repmat red_filter (H / 2) (W / 2) i j
    (by simp only [red_filter, List.length_cons, List.length_nil]; omega)
    (by simp only [red_filter, List.headD_cons, List.length_cons, List.length_nil]; omega)
  simpa [red_mask, red_filter] using h

theorem geen_mask_entry (H W i j : ℕ) (hH : H % 2 = 0) (hW : W % 2 = 0) (hi : i < H)
    (hj : j < W) : getElem2 (geen_mask H W) i j = getElem2 green_filter (i % 2) (j % 2) := by
  have h := getElem2_repmat green_filter (H / 2) (W / 2) i j
    (by simp only [green_filter, List.length_cons, List.length_nil]; omega)
    (by simp only [green_filter, List.headD_cons, List.length_cons, List.length_nil]; omega)
  simpa [geen_mask, green_filter] using h

theorem blue_mask_entry (H W i j : ℕ) (hH : H % 2 = 0) (hW : W % 2 = 0) (hi : i < H)
    (hj : j < W) : getElem2 (blue_mask H W) i j = getElem2 blue_filter (i % 2) (j % 2) := by
  have h := getElem2_repmat blue_filter (H / 2) (W / 2) i j
    (by simp only [blue_filter, List.length_cons, List.length_nil]; omega)
    (by simp only [blue_filter, List.headD_cons, List.length_cons, List.length_nil]; omega)
  simpa [blue_mask, blue_filter] using h

theorem rfe00 : getElem2 red_filter 0 0 = 1 := rfl

theorem rfe01 : getElem2 red_filter 0 1 = 0 := rfl

theorem rfe10 : getElem2 red_filter 1 0 = 0 := rfl

theorem rfe11 : getElem2 red_filter 1 1 = 0 := rfl

theorem gfe00 : getElem2 green_filter 0 0 = 0 := rfl

theorem gfe01 : getElem2 green_filter 0 1 = 1 := rfl

theorem gfe10 : getElem2 green_filter 1 0 = 1 := rfl

theorem gfe11 : getElem2 green_filter 1 1 = 0 := rfl

theorem bfe00 : getElem2 blue_filter 0 0 = 0 := rfl

theorem bfe01 : getElem2 blue_filter 0 1 = 0 := rfl

theorem bfe10 : getElem2 blue_filter 1 0 = 0 := rfl

theorem bfe11 : getElem2 blue_filter 1 1 = 1 := rfl

theorem rbk00 : getElem2 red_blue_interpolation 0 0 = 1/4 := rfl

theorem rbk01 : getElem2 red_blue_interpolation 0 1 = 2/4 := rfl

theorem rbk02 : getElem2 red_blue_interpolation 0 2 = 1/4 := rfl

theorem rbk10 : getElem2 red_blue_interpolation 1 0 = 2/4 := rfl

theorem rbk11 : getElem2 red_blue_interpolation 1 1 = 4/4 := rfl

theorem rbk12 : getElem2 red_blue_interpolation 1 2 = 2/4 := rfl

theorem rbk20 : getElem2 red_blue_interpolation 2 0 = 1/4 := rfl

theorem rbk21 : getElem2 red_blue_interpolation 2 1 = 2/4 := rfl

theorem rbk22 : getElem2 red_blue_interpolation 2 2 = 1/4 := rfl

theorem gkn00 : getElem2 green_interpolation 0 0 = 0/4 := rfl

theorem gkn01 : getElem2 green_interpolation 0 1 = 1/4 := rfl

theorem gkn02 : getElem2 green_interpolation 0 2 = 0/4 := rfl

theorem gkn10 : getElem2 green_interpolation 1 0 = 1/4 := rfl

theorem gkn11 : getElem2 green_interpolation 1 1 = 4/4 := rfl

theorem gkn12 : getElem2 green_interpolation 1 2 = 1/4 := rfl

theorem gkn20 : getElem2 green_interpolation 2 0 = 0/4 := rfl

theorem gkn21 : getElem2 green_interpolation 2 1 = 1/4 := rfl

theorem gkn22 : getElem2 green_interpolation 2 2 = 0/4 := rfl

theorem toNatZero : Int.toNat 0 = 0 := rfl

theorem toNatOne : Int.toNat 1 = 1 := rfl

theorem toNatTwo : Int.toNat 2 = 2 := rfl

theorem toNatThree : Int.toNat 3 = 3 := rfl

theorem toNatFour : Int.toNat 4 = 4 := rfl

theorem len_half4 : List.length half4 = 4 := rfl

theorem widthTerm_half4 : (List.headD half4 []).length = 4 := rfl

theorem lenR4 : (gridMul half4 (red_mask 4 4)).length = 4 := rfl

theorem lenhR4 : ((gridMul half4 (red_mask 4 4)).headD []).length = 4 := rfl

theorem lenG4 : (gridMul half4 (geen_mask 4 4)).length = 4 := rfl

theorem lenhG4 : ((gridMul half4 (geen_mask 4 4)).headD []).length = 4 := rfl

theorem lenB4 : (gridMul half4 (blue_mask 4 4)).length = 4 := rfl

theorem lenhB4 : ((gridMul half4 (blue_mask 4 4)).headD []).length = 4 := rfl

theorem getElem2_red_mask4 (i j : ℕ) (hi : i < 4) (hj : j < 4) :
    getElem2 (red_mask 4 4) i j = getElem2 red_filter (i % 2) (j % 2) :=
  red_mask_entry 4 4 i j rfl rfl hi hj

theorem getElem2_geen_mask4 (i j : ℕ) (hi : i < 4) (hj : j < 4) :
    getElem2 (geen_mask 4 4) i j = getElem2 green_filter (i % 2) (j % 2) :=
  geen_mask_entry 4 4 i j rfl rfl hi hj

theorem getElem2_blue_mask4 (i j : ℕ) (hi : i < 4) (hj : j < 4) :
    getElem2 (blue_mask 4 4) i j = getElem2 blue_filter (i % 2) (j % 2) :=
  blue_mask_entry 4 4 i j rfl rfl hi hj

theorem demosaic_half4_interior (i j k : ℕ) (hi : i = 1 ∨ i = 2) (hj : j = 1 ∨ j = 2)
    (hk : k < 3) : getElem3 (demosaic half4) i j k = 1/2 := by
  rcases hi with rfl | rfl <;> rcases hj with rfl | rfl <;> interval_cases k <;>
  · show conv3At _ _ _ _ = 1/2
    simp only [len_half4, widthTerm_half4]
    simp only [conv3At, offsets, List.map_cons, List.map_nil, List.sum_cons, List.sum_nil]
    norm_num [toNatZero, toNatOne, toNatTwo, toNatThree, toNatFour, rbk00, rbk01, rbk02, rbk10, rbk11, rbk12, rbk20, rbk21, rbk22,
      gkn00, gkn01, gkn02, gkn10, gkn11, gkn12, gkn20, gkn21, gkn22]
    simp only [sample, lenR4, lenhR4, lenG4, lenhG4, lenB4, lenhB4, getElem2_gridMul]
    norm_num [toNatZero, toNatOne, toNatTwo, toNatThree, toNatFour, reflectIdx, getElem2_half4, getElem2_red_mask4, getElem2_geen_mask4,
      getElem2_blue_mask4, rfe00, rfe01, rfe10, rfe11, gfe00, gfe01, gfe10, gfe11,
      bfe00, bfe01, bfe10, bfe11]

theorem demosaic_half4_corner : getElem3 (demosaic half4) 0 0 0 = 9/8 := by
  show conv3At _ _ _ _ = 9/8
  simp only [len_half4, widthTerm_half4]
  simp only [conv3At, offsets, List.map_cons, List.map_nil, List.sum_cons, List.sum_nil]
  norm_num [toNatZero, toNatOne, toNatTwo, toNatThree, toNatFour, rbk00, rbk01, rbk02, rbk10, rbk11, rbk12, rbk20, rbk21, rbk22]
  simp only [sample, lenR4, lenhR4, getElem2_gridMul]
  norm_num [toNatZero, toNatOne, toNatTwo, toNatThree, toNatFour, reflectIdx, getElem2_half4, getElem2_red_mask4,
    rfe00, rfe01, rfe10, rfe11]

theorem getD_mem {α : Type} (l : List α) (i : ℕ) (h : i < l.length) (d : α) :
    l.getD i d ∈ l := by
  rw [List.getD_eq_getElem?_getD, List.getElem?_eq_getElem h]
  exact List.getElem_mem h

/-- Claim C1: for every even height H and even width W, the three channel masks built by
tiling the 2x2 units are pairwise disjoint and at every pixel position (i, j) with i < H,
j < W exactly one of the three masks is nonzero (the nonzero entries being 1). -/
theorem mask_builder_partition (H W : ℕ) (hH : H % 2 = 0) (hW : W % 2 = 0) (i j : ℕ)
    (hi : i < H) (hj : j < W) :
    (getElem2 (red_mask H W) i j = 1 ∧ getElem2 (geen_mask H W) i j = 0
        ∧ getElem2 (blue_mask H W) i j = 0)
      ∨ (getElem2 (red_mask H W) i j = 0 ∧ getElem2 (geen_mask H W) i j = 1
        ∧ getElem2 (blue_mask H W) i j = 0)
      ∨ (getElem2 (red_mask H W) i j = 0 ∧ getElem2 (geen_mask H W) i j = 0
        ∧ getElem2 (blue_mask H W) i j = 1) := by
  rw [red_mask_entry H W i j hH hW hi hj, geen_mask_entry H W i j hH hW hi hj,
    blue_mask_entry H W i j hH hW hi hj]
  rcases Nat.mod_two_eq_zero_or_one i with h2 | h2 <;>
    rcases Nat.mod_two_eq_zero_or_one j with h3 | h3 <;>
      rw [h2, h3] <;>
        simp [rfe00, rfe01, rfe10, rfe11, gfe00, gfe01, gfe10, gfe11, bfe00, bfe01, bfe10, bfe11]

/-- Witness for C1 at H = W = 2, i = j = 0. -/
theorem mask_builder_partition_witness :
    (getElem2 (red_mask 2 2) 0 0 = 1 ∧ getElem2 (geen_mask 2 2) 0 0 = 0
        ∧ getElem2 (blue_mask 2 2) 0 0 = 0)
      ∨ (getElem2 (red_mask 2 2) 0 0 = 0 ∧ getElem2 (geen_mask 2 2) 0 0 = 1
        ∧ getElem2 (blue_mask 2 2) 0 0 = 0)
      ∨ (getElem2 (red_mask 2 2) 0 0 = 0 ∧ getElem2 (geen_mask 2 2) 0 0 = 0
        ∧ getElem2 (blue_mask 2 2) 0 0 = 1) :=
  mask_builder_partition 2 2 rfl rfl 0 0 (by norm_num) (by norm_num)

/-- Claim C2: for every sensor array with even height H and even width W the demosaic
result has H rows, each row has W pixels and each pixel has 3 channels; and no clamping
is performed: the all-0.5 4x4 input (values inside [0,1]) produces the corner value 9/8,
which exceeds 1 and therefore could not survive any clamp to [0,1]. -/
theorem demosaic_shape_noclamp (H W : ℕ) (g : Grid) (hH : H % 2 = 0) (hW : W % 2 = 0)
    (hlen : g.length = H) (hrow : ∀ row ∈ g, row.length = W) :
    ((demosaic g).length = H
        ∧ ∀ row ∈ demosaic g, row.length = W ∧ ∀ p ∈ row, p.length = 3)
      ∧ getElem3 (demosaic half4) 0 0 0 = 9/8 := by
  refine ⟨⟨by simp [demosaic, hlen], ?_⟩, demosaic_half4_corner⟩
  intro row hrow2
  simp only [demosaic] at hrow2
  obtain ⟨i, hiR, rfl⟩ := List.mem_map.mp hrow2
  constructor
  · cases g with
    | nil => simp at hiR
    | cons r t =>
      have hw : r.length = W := hrow r (by simp)
      simp [hw]
  · intro p hp
    obtain ⟨jj, hjR, rfl⟩ := List.mem_map.mp hp
    rfl

/-- Witness for C2 at the all-0.5 4x4 sensor array. -/
theorem demosaic_shape_noclamp_witness :
    (((demosaic half4).length = 4
        ∧ ∀ row ∈ demosaic half4, row.length = 4 ∧ ∀ p ∈ row, p.length = 3)
      ∧ getElem3 (demosaic half4) 0 0 0 = 9/8) :=
  demosaic_shape_noclamp 4 4 half4 rfl rfl rfl (by simp [half4])

theorem getElem3_applyGains0 (img : ColorImage) (g0 g1 g2 : ℚ) (i j : ℕ)
    (hi : i < img.length) (hj : j < (img.getD i []).length) :
    getElem3 (applyGains img g0 g1 g2) i j 0 = clip (getElem3 img i j 0 * g0) 0 1 := by
  unfold applyGains getElem3
  rw [getD_map_lt _ _ _ hi _ []]
  rw [getD_map_lt _ _ _ hj _ []]
  rfl

theorem getElem3_applyGains1 (img : ColorImage) (g0 g1 g2 : ℚ) (i j : ℕ)
    (hi : i < img.length) (hj : j < (img.getD i []).length) :
    getElem3 (applyGains img g0 g1 g2) i j 1 = clip (getElem3 img i j 1 * g1) 0 1 := by
  unfold applyGains getElem3
  rw [getD_map_lt _ _ _ hi _ []]
  rw [getD_map_lt _ _ _ hj _ []]
  rfl

theorem getElem3_applyGains2 (img : ColorImage) (g0 g1 g2 : ℚ) (i j : ℕ)
    (hi : i < img.length) (hj : j < (img.getD i []).length) :
    getElem3 (applyGains img g0 g1 g2) i j 2 = clip (getElem3 img i j 2 * g2) 0 1 := by
  unfold applyGains getElem3
  rw [getD_map_lt _ _ _ hi _ []]
  rw [getD_map_lt _ _ _ hj _ []]
  rfl

theorem clip01_bounds (x : ℚ) : 0 ≤ clip x 0 1 ∧ clip x 0 1 ≤ 1 :=
  ⟨le_min (le_max_right x 0) (by norm_num), min_le_right _ _⟩

/-- Claim C3: for every image and every gain triple the white balance stage succeeds,
multiplies each pixel channel by its gain (then clips), keeps the shape, and every
entry of the result lies in [0, 1]. -/
theorem white_balance_gains_spec (img : ColorImage) (h w : ℕ) (himg : isImage img h w)
    (g0 g1 g2 : ℚ) :
    white_balance img (.gains g0 g1 g2) = .ok (applyGains img g0 g1 g2)
      ∧ isImage (applyGains img g0 g1 g2) h w
      ∧ (∀ i j, i < h → j < w →
          getElem3 (applyGains img g0 g1 g2) i j 0 = clip (getElem3 img i j 0 * g0) 0 1
          ∧ getElem3 (applyGains img g0 g1 g2) i j 1 = clip (getElem3 img i j 1 * g1) 0 1
          ∧ getElem3 (applyGains img g0 g1 g2) i j 2 = clip (getElem3 img i j 2 * g2) 0 1)
      ∧ imageAllQ (fun x => 0 ≤ x ∧ x ≤ 1) (applyGains img g0 g1 g2) := by
  obtain ⟨hlen, hrows⟩ := himg
  refine ⟨rfl, ⟨by simp [applyGains, hlen], ?_⟩, ?_, ?_⟩
  · intro row hrow
    obtain ⟨r, hr, rfl⟩ := List.mem_map.mp hrow
    refine ⟨by simp [(hrows r hr).1], ?_⟩
    intro p hp
    obtain ⟨q, hq, rfl⟩ := List.mem_map.mp hp
    rfl
  · intro i j hi hj
    have hi' : i < img.length := by omega
    have hj' : j < (img.getD i []).length := by
      rw [(hrows _ (getD_mem img i hi' [])).1]
      exact hj
    exact ⟨getElem3_applyGains0 img g0 g1 g2 i j hi' hj',
      getElem3_applyGains1 img g0 g1 g2 i j hi' hj',
      getElem3_applyGains2 img g0 g1 g2 i j hi' hj'⟩
  · intro row hrow p hp x hx
    obtain ⟨r, hr, rfl⟩ := List.mem_map.mp hrow
    obtain ⟨q, hq, rfl⟩ := List.mem_map.mp hp
    simp only [List.mem_cons, List.not_mem_nil, or_false] at hx
    rcases hx with rfl | rfl | rfl <;> exact clip01_bounds _

/-- Witness for C3 on a 1x1 image with gains (2, 3, 4). -/
theorem white_balance_gains_spec_witness :
    white_balance [[[1, 1, 1]]] (.gains 2 3 4) = .ok (applyGains [[[1, 1, 1]]] 2 3 4)
      ∧ isImage (applyGains [[[1, 1, 1]]] 2 3 4) 1 1
      ∧ (∀ i j, i < 1 → j < 1 →
          getElem3 (applyGains [[[1, 1, 1]]] 2 3 4) i j 0
            = clip (getElem3 [[[1, 1, 1]]] i j 0 * 2) 0 1
          ∧ getElem3 (applyGains [[[1, 1, 1]]] 2 3 4) i j 1
            = clip (getElem3 [[[1, 1, 1]]] i j 1 * 3) 0 1
          ∧ getElem3 (applyGains [[[1, 1, 1]]] 2 3 4) i j 2
            = clip (getElem3 [[[1, 1, 1]]] i j 2 * 4) 0 1)
      ∧ imageAllQ (fun x => 0 ≤ x ∧ x ≤ 1) (applyGains [[[1, 1, 1]]] 2 3 4) :=
  white_balance_gains_spec [[[1, 1, 1]]] 1 1 (by simp [isImage]) 2 3 4

/-- Claim C7: in pixel-coordinate mode, when the referenced pixel has channel values
(v0, v1, v2) all nonzero, the white balance stage behaves exactly as gain-triple mode
with the element-wise reciprocal gains (1/v0, 1/v1, 1/v2). -/
theorem white_balance_pixel_mode_reciprocal (img : ColorImage) (h w : ℕ)
    (himg : isImage img h w) (r c : ℕ) (hr : r < h) (hc : c < w) (v0 v1 v2 : ℚ)
    (hv : pixelAt img r c = [v0, v1, v2]) (h0 : v0 ≠ 0) (h1 : v1 ≠ 0) (h2 : v2 ≠ 0) :
    white_balance img (.pixel (r : ℤ) (c : ℤ))
      = white_balance img (.gains (1/v0) (1/v1) (1/v2)) := by
  obtain ⟨hlen, hrows⟩ := himg
  have hnr : npIndex img.length (r : ℤ) = some r := by
    unfold npIndex
    rw [if_pos ⟨Int.natCast_nonneg r, by rw [hlen]; exact_mod_cast hr⟩, Int.toNat_ofNat]
  have hwid : (img.headD []).length = w := by
    cases img with
    | nil =>
      exfalso
      simp only [List.length_nil] at hlen
      omega
    | cons a t => simpa using (hrows a (by simp)).1
  have hnc : npIndex (img.headD []).length (c : ℤ) = some c := by
    unfold npIndex
    rw [if_pos ⟨Int.natCast_nonneg c, by rw [hwid]; exact_mod_cast hc⟩, Int.toNat_ofNat]
  simp only [white_balance, hnr, hnc, hv]
  norm_num

/-- Witness for C7 on a 1x1 image with constant pixel value 1/2. -/
theorem white_balance_pixel_mode_reciprocal_witness :
    white_balance [[[1/2, 1/2, 1/2]]] (.pixel ((0 : ℕ) : ℤ) ((0 : ℕ) : ℤ))
      = white_balance [[[1/2, 1/2, 1/2]]] (.gains (1/(1/2)) (1/(1/2)) (1/(1/2))) :=
  white_balance_pixel_mode_reciprocal [[[1/2, 1/2, 1/2]]] 1 1 (by simp [isImage]) 0 0
    (by norm_num) (by norm_num) (1/2) (1/2) (1/2) rfl (by norm_num) (by norm_num) (by norm_num)

/-- Claim C4 (code bug evidence): pointing the pixel-coordinate reference at an
all-black pixel does NOT fail; the embedded stage returns Except.ok normally because
the source divides by the pixel value without any guard.  (numpy produces inf gains
and then NaN entries via 0 * inf; over the exact rationals 1/0 is the junk value 0 and
the clipped image is all zeros — in both semantics no DegenerateGain error exists.) -/
theorem white_balance_degenerate_no_error :
    white_balance [[[0, 0, 0]]] (.pixel 0 0) = .ok [[[0, 0, 0]]] := by
  norm_num [white_balance, npIndex, pixelAt, applyGains, clip, min_def, max_def]

/-- Claim C9 counterexample: the reference (-1, 0) lies outside [0, H) x [0, W) for the
1x1 image below, yet the stage does not fail: numpy wraps the negative index
Python-style to row H-1 and an image is produced. -/
theorem white_balance_negative_index_counterexample :
    (-1 : ℤ) < 0 ∧ white_balance [[[1, 1, 1]]] (.pixel (-1) 0) = .ok [[[1, 1, 1]]] := by
  constructor
  · norm_num
  · norm_num [white_balance, npIndex, pixelAt, applyGains, clip, min_def, max_def]

/-- Claim C9 (amended): the white balance stage fails with an index error exactly for
references beyond the numpy indexing range, i.e. when r ≥ H or r < -H or c ≥ W or
c < -W; negative indices with -H ≤ r < 0 wrap around Python-style instead of failing. -/
theorem white_balance_out_of_bounds_error (img : ColorImage) (h w : ℕ)
    (himg : isImage img h w) (r c : ℤ)
    (hout : (h : ℤ) ≤ r ∨ r < -(h : ℤ) ∨ (w : ℤ) ≤ c ∨ c < -(w : ℤ)) :
    white_balance img (.pixel r c) = .error .indexError := by
  obtain ⟨hlen, hrows⟩ := himg
  cases hnr : npIndex img.length r with
  | none => simp [white_balance, hnr]
  | some ri =>
    have hr' : -(h : ℤ) ≤ r ∧ r < (h : ℤ) := by
      unfold npIndex at hnr
      split_ifs at hnr with hA hB
      · constructor <;> omega
      · constructor <;> omega
    have hc : (w : ℤ) ≤ c ∨ c < -(w : ℤ) := by
      rcases hout with h1 | h1 | h1 | h1
      · exact absurd h1 (by omega)
      · exact absurd h1 (by omega)
      · exact Or.inl h1
      · exact Or.inr h1
    cases img with
    | nil =>
      exfalso
      simp only [List.length_nil] at hlen
      omega
    | cons a t =>
      have hwid : (List.headD (a :: t) []).length = w := by
        simpa using (hrows a (by simp)).1
      have hnc : npIndex (List.headD (a :: t) []).length c = none := by
        rw [hwid]
        unfold npIndex
        have hA : ¬(0 ≤ c ∧ c < (w : ℤ)) := by omega
        have hB : ¬(-(w : ℤ) ≤ c ∧ c < 0) := by omega
        rw [if_neg hA, if_neg hB]
      simp only [white_balance]
      rw [hnr]
      simp only [hnc]

/-- Witness for the amended C9 at reference (5, 0) on a 1x1 image. -/
theorem white_balance_out_of_bounds_error_witness :
    white_balance [[[1, 1, 1]]] (.pixel 5 0) = .error .indexError :=
  white_balance_out_of_bounds_error [[[1, 1, 1]]] 1 1 (by simp [isImage]) 5 0
    (Or.inl (by norm_num))

/-- Claim C5 (code bug evidence): the gamma stage performs no validation of gamma.
With gamma = 0 it silently applies the power transform and returns the all-ones image
(np.power(x, 0) = 1, matching rpow), instead of rejecting with InvalidGamma. -/
theorem gamma_correction_no_invalid_gamma_check :
    gamma_correction [[[(1/2 : ℝ)]]] 0 = [[[1]]] := by
  simp [gamma_correction, Real.rpow_zero]

theorem map_id_of_mem {α : Type} (l : List α) (f : α → α) (h : ∀ x ∈ l, f x = x) :
    l.map f = l := by
  induction l with
  | nil => rfl
  | cons a t ih =>
    simp only [List.map_cons]
    rw [h a (by simp), ih (fun x hx => h x (by simp [hx]))]

/-- Claim C6: applying gamma correction with exponent g > 0 and then with exponent 1/g
returns the original image whenever every entry lies in (0, 1] (exact equality over the
reals, hence within any floating-point tolerance). -/
theorem gamma_correction_inverse_composition (img : RealImage) (g : ℝ) (hg : 0 < g)
    (h : imageAllR (fun x => 0 < x ∧ x ≤ 1) img) :
    gamma_correction (gamma_correction img g) (1/g) = img := by
  unfold gamma_correction
  rw [List.map_map]
  apply map_id_of_mem
  intro row hrow
  simp only [Function.comp_apply]
  rw [List.map_map]
  apply map_id_of_mem
  intro p hp
  simp only [Function.comp_apply]
  rw [List.map_map]
  apply map_id_of_mem
  intro x hx
  simp only [Function.comp_apply]
  obtain ⟨hx0, _⟩ := h row hrow p hp x hx
  rw [← Real.rpow_mul (le_of_lt hx0), mul_one_div_cancel (ne_of_gt hg), Real.rpow_one]

/-- Witness for C6 on the 1x1x1 image [[[1]]] with g = 1. -/
theorem gamma_correction_inverse_composition_witness :
    gamma_correction (gamma_correction [[[(1 : ℝ)]]] 1) (1/1) = [[[(1 : ℝ)]]] :=
  gamma_correction_inverse_composition [[[(1 : ℝ)]]] 1 one_pos (by norm_num [imageAllR])

/-- Claim C10: for gamma > 0 the gamma stage maps an image with entries in [0, 1] to an
image of the same shape with entries in [0, 1]; no clamp is needed in this stage. -/
theorem gamma_correction_preserves_unit_interval (img : RealImage) (γ : ℝ) (hγ : 0 < γ)
    (h : imageAllR (fun x => 0 ≤ x ∧ x ≤ 1) img) :
    dims (gamma_correction img γ) = dims img
      ∧ imageAllR (fun x => 0 ≤ x ∧ x ≤ 1) (gamma_correction img γ) := by
  constructor
  · simp [dims, gamma_correction, List.map_map, Function.comp]
  · intro row hrow p hp x hx
    obtain ⟨r, hr, rfl⟩ := List.mem_map.mp hrow
    obtain ⟨q, hq, rfl⟩ := List.mem_map.mp hp
    obtain ⟨y, hy, rfl⟩ := List.mem_map.mp hx
    obtain ⟨hy0, hy1⟩ := h r hr q hq y hy
    exact ⟨Real.rpow_nonneg hy0 γ, Real.rpow_le_one hy0 hy1 (le_of_lt hγ)⟩

/-- Witness for C10 on the image [[[0]]] with gamma = 1. -/
theorem gamma_correction_preserves_unit_interval_witness :
    dims (gamma_correction [[[(0 : ℝ)]]] 1) = dims [[[(0 : ℝ)]]]
      ∧ imageAllR (fun x => 0 ≤ x ∧ x ≤ 1) (gamma_correction [[[(0 : ℝ)]]] 1) :=
  gamma_correction_preserves_unit_interval [[[(0 : ℝ)]]] 1 one_pos (by norm_num [imageAllR])

theorem applyGains_half4_interior (i j k : ℕ) (hi : i = 1 ∨ i = 2) (hj : j = 1 ∨ j = 2)
    (hk : k < 3) : getElem3 (applyGains (demosaic half4) 1 1 1) i j k = 1/2 := by
  have hd := demosaic_half4_interior i j k hi hj hk
  have hi' : i < (demosaic half4).length := by rcases hi with rfl | rfl <;> decide
  have hj' : j < ((demosaic half4).getD i []).length := by
    rcases hi with rfl | rfl <;> rcases hj with rfl | rfl <;> decide
  interval_cases k
  · rw [getElem3_applyGains0 _ _ _ _ _ _ hi' hj', hd]
    norm_num [clip, max_def, min_def]
  · rw [getElem3_applyGains1 _ _ _ _ _ _ hi' hj', hd]
    norm_num [clip, max_def, min_def]
  · rw [getElem3_applyGains2 _ _ _ _ _ _ hi' hj', hd]
    norm_num [clip, max_def, min_def]

theorem getElem3R_gamma (img : ColorImage) (γ : ℝ) (i j k : ℕ) (hi : i < img.length)
    (hj : j < (img.getD i []).length) (hk : k < ((img.getD i []).getD j []).length) :
    getElem3R (gamma_correction (toRealImage img) γ) i j k
      = ((getElem3 img i j k : ℚ) : ℝ) ^ γ := by
  unfold getElem3R gamma_correction toRealImage getElem3
  rw [List.map_map]
  rw [getD_map_lt _ _ _ hi _ []]
  simp only [Function.comp_apply]
  rw [List.map_map]
  rw [getD_map_lt _ _ _ hj _ []]
  simp only [Function.comp_apply]
  rw [List.map_map]
  rw [getD_map_lt _ _ _ hk _ 0]
  simp only [Function.comp_apply]

theorem castHalf : ((1/2 : ℚ) : ℝ) = 1/2 := by norm_num

theorem gammaHalf_bound : |((1/2 : ℝ) ^ (1/2 : ℝ)) - 7071/10000| < 1/10000 := by
  have hs : (1/2 : ℝ) ^ (1/2 : ℝ) = Real.sqrt (1/2) := (Real.sqrt_eq_rpow _).symm
  rw [hs, abs_sub_lt_iff]
  constructor
  · have h2 : Real.sqrt (1/2) < 7072/10000 := by
      rw [show (7072/10000 : ℝ) = Real.sqrt ((7072/10000)^2) from
        (Real.sqrt_sq (by norm_num)).symm]
      exact Real.sqrt_lt_sqrt (by norm_num) (by norm_num)
    linarith
  · have h1 : (7071/10000 : ℝ) ≤ Real.sqrt (1/2) := by
      rw [show (7071/10000 : ℝ) = Real.sqrt ((7071/10000)^2) from
        (Real.sqrt_sq (by norm_num)).symm]
      exact Real.sqrt_le_sqrt (by norm_num)
    linarith

/-- Claim C8: for the all-0.5 4x4 sensor array, at every position away from the image
edge (rows and columns 1 and 2) each demosaiced channel equals 0.5; white balance with
gain triple (1, 1, 1) succeeds and leaves every such pixel unchanged; gamma correction
with gamma = 0.5 then makes every such value approximately 0.7071. -/
theorem pipeline_half4_scenario (i j k : ℕ) (hi : i = 1 ∨ i = 2) (hj : j = 1 ∨ j = 2)
    (hk : k < 3) :
    getElem3 (demosaic half4) i j k = 1/2
      ∧ white_balance (demosaic half4) (.gains 1 1 1)
          = .ok (applyGains (demosaic half4) 1 1 1)
      ∧ getElem3 (applyGains (demosaic half4) 1 1 1) i j k
          = getElem3 (demosaic half4) i j k
      ∧ |getElem3R
            (gamma_correction (toRealImage (applyGains (demosaic half4) 1 1 1)) (1/2))
            i j k - 7071/10000| < 1/10000 := by
  have hd := demosaic_half4_interior i j k hi hj hk
  have hw := applyGains_half4_interior i j k hi hj hk
  refine ⟨hd, rfl, by rw [hw, hd], ?_⟩
  have hi' : i < (applyGains (demosaic half4) 1 1 1).length := by
    rcases hi with rfl | rfl <;> decide
  have hj' : j < ((applyGains (demosaic half4) 1 1 1).getD i []).length := by
    rcases hi with rfl | rfl <;> rcases hj with rfl | rfl <;> decide
  have hk' : k < (((applyGains (demosaic half4) 1 1 1).getD i []).getD j []).length := by
    have h3 : (((applyGains (demosaic half4) 1 1 1).getD i []).getD j []).length = 3 := by
      rcases hi with rfl | rfl <;> rcases hj with rfl | rfl <;> decide
    omega
  rw [getElem3R_gamma _ _ _ _ _ hi' hj' hk', hw, castHalf]
  exact gammaHalf_bound

/-- Witness for C8 at interior position (1, 1), channel 0. -/
theorem pipeline_half4_scenario_witness :
    getElem3 (demosaic half4) 1 1 0 = 1/2
      ∧ white_balance (demosaic half4) (.gains 1 1 1)
          = .ok (applyGains (demosaic half4) 1 1 1)
      ∧ getElem3 (applyGains (demosaic half4) 1 1 1) 1 1 0
          = getElem3 (demosaic half4) 1 1 0
      ∧ |getElem3R
            (gamma_correction (toRealImage (applyGains (demosaic half4) 1 1 1)) (1/2))
            1 1 0 - 7071/10000| < 1/10000 :=
  pipeline_half4_scenario 1 1 0 (Or.inl rfl) (Or.inl rfl) (by norm_num)
